import Mathlib

/-!
Verification development for the expert feed-forward (MLP) layer of a
mixture-of-experts network (source: megablocks/layers/mlp.py).

The embedding is shallow: tensor values are a free term algebra over the
external collaborator operations (the block-sparse kernels `stk.ops.sdd`
and `stk.ops.dsd`, the raw triton kernel entry points, the GELU engine and
the `turbo` quantization engine).  The Memory-Optimized Operator's forward
pass is a pure `Except`-returning function; its backward pass is modelled
over an explicit buffer store so that the buffer-reuse schedule of the
source is visible.  Weight-sharding arithmetic is modelled over index
functions.
-/

namespace MB

/-- Abstract tensor values: a free term algebra over the external
collaborator operations.  `base n` is an opaque leaf tensor; `tr` is
`Tensor.t()`; `smul q v` is `v * q` (scalar multiplication); `sddData a b t`
is the data buffer of `stk.ops.sdd(a, b, topo t)`; `dsdData tp d t w` is
`stk.ops.dsd(Matrix(data d, topo t, transposed tp), w)`; `ksdd`/`kdsd` are
the raw `stk.backend.triton_kernels` sdd/dsd entry points; `geluF` is the
GELU forward of a data buffer, `geluB g p` the in-place GELU backward of
gradient `g` at pre-activation `p`; the `q...` constructors are the outputs
of `turbo.quantize_signed` (plain, and fused with `GELU_FORWARD`), and the
`deq...` constructors the outputs of `turbo.dequantize_signed` (plain,
fused `GELU_FORWARD`, fused `GELU_BACKWARD` applied to a gradient);
`topoComp t k` is the `k`-th metadata tensor of topology `t`. -/
inductive Val : Type where
  | base : Nat → Val
  | tr : Val → Val
  | smul : ℚ → Val → Val
  | sddData : Val → Val → Nat → Val
  | dsdData : Bool → Val → Nat → Val → Val
  | ksdd : Val → Val → Nat → Val
  | kdsd : Val → Nat → Val → Val
  | geluF : Val → Val
  | geluB : Val → Val → Val
  | qData : Val → Int → Val
  | qScales : Val → Int → Val
  | qFusedData : Val → Int → Val
  | qFusedScales : Val → Int → Val
  | qFusedFwd : Val → Int → Val
  | deq : Val → Val → Int → Val
  | deqGeluF : Val → Val → Int → Val
  | deqGeluB : Val → Val → Int → Val → Val
  | topoComp : Nat → Nat → Val
  deriving DecidableEq

/-- Whether a value is a packed quantized buffer or a scales buffer
produced by `turbo.quantize_signed`. -/
def Val.isQuantBuf : Val → Bool
  | .qData _ _ => true
  | .qScales _ _ => true
  | .qFusedData _ _ => true
  | .qFusedScales _ _ => true
  | _ => false

/-- Block-sparse topology descriptor: an identifier for the sparsity
pattern together with the block-level shape.  The six metadata tensors
(`row_indices`, `column_indices`, `offsets`, `column_indices_t`,
`offsets_t`, `block_offsets_t`) are recovered as `topoComp` values. -/
structure Topo where
  id : Nat
  shape : Nat × Nat
  deriving DecidableEq

/-- The tuple `(topo.row_indices, topo.column_indices, topo.offsets,
topo.column_indices_t, topo.offsets_t, topo.block_offsets_t)` built at the
start of `MemoryOptimizedMLP.forward`. -/
def Topo.tensors (t : Topo) : List Val :=
  [.topoComp t.id 0, .topoComp t.id 1, .topoComp t.id 2,
   .topoComp t.id 3, .topoComp t.id 4, .topoComp t.id 5]

/-- A block-sparse matrix (`stk.Matrix`): shape, data buffer, the topology
it was built from, and whether it is a transposed view. -/
structure SpMatrix where
  shape : Nat × Nat
  data : Val
  topoId : Nat
  transposed : Bool
  deriving DecidableEq

/-- Transposed view `m.t()` of a block-sparse matrix. -/
def SpMatrix.t (m : SpMatrix) : SpMatrix :=
  ⟨(m.shape.2, m.shape.1), m.data, m.topoId, !m.transposed⟩

/-- External collaborator `stk.ops.sdd(x, w, topo)`: a block-sparse matrix
with the non-zero pattern of `topo` whose data is the sampled product. -/
def stkSdd (x w : Val) (t : Topo) : SpMatrix :=
  ⟨t.shape, .sddData x w t.id, t.id, false⟩

/-- External collaborator `stk.ops.dsd(m, w)`: the dense product of a
block-sparse matrix with a dense right-hand side. -/
def stkDsd (m : SpMatrix) (w : Val) : Val :=
  .dsdData m.transposed m.data m.topoId w

/-- Modelled from the spec: `megablocks.layers.gelu.gelu` (the module is
not under src/) applies the tanh-approximated GELU to the data buffer of a
block-sparse matrix, leaving the sparsity metadata unchanged. -/
def geluMat (m : SpMatrix) : SpMatrix :=
  { m with data := .geluF m.data }

/-- Fatal error classes raised by this layer. -/
inductive Err where
  | notContiguous
  | badNumBits
  | needsGrad
  | indivisible
  | malformedCtx
  deriving DecidableEq

/-- A dense tensor argument: its value and its contiguity flag. -/
structure Tensor where
  val : Val
  contiguous : Bool
  deriving DecidableEq

/-- The autograd context saved by `MemoryOptimizedMLP.forward`:
`ctx.shape` and `ctx.num_bits` are stored as plain attributes, `saved` is
the exact tuple passed to `ctx.save_for_backward`.  The `topoId` field
records the sparsity pattern carried by the six saved topology tensors
(in the source it is implicit in those tensors). -/
structure Ctx where
  shape : Nat × Nat
  numBits : Int
  saved : List Val
  topoId : Nat
  deriving DecidableEq

/-- Forward pass of the Memory-Optimized Operator
(`MemoryOptimizedMLP.forward`): checks contiguity of `x`, `w1`, `w2` and
validity of `num_bits` eagerly, computes `sdd_out = stk.ops.sdd(x, w1.t(),
topo)`, applies GELU (fused with quantization when `num_bits` is 4 or 8),
computes `dsd_out = stk.ops.dsd(gelu_out, w2)`, and saves the context. -/
def moForward (x w1 w2 : Tensor) (topo : Topo) (numBits : Int) :
    Except Err (Val × Ctx) :=
  if ¬ (x.contiguous = true ∧ w1.contiguous = true ∧ w2.contiguous = true) then
    .error .notContiguous
  else if ¬ (numBits = -1 ∨ numBits = 4 ∨ numBits = 8) then
    .error .badNumBits
  else
    let sddOut := stkSdd x.val (.tr w1.val) topo
    let stage :=
      if numBits = -1 then
        (geluMat sddOut, [x.val, sddOut.data])
      else
        let hiddenQ := Val.qFusedData sddOut.data numBits
        let hiddenScales := Val.qFusedScales sddOut.data numBits
        let geluOutData := Val.qFusedFwd sddOut.data numBits
        let geluOut : SpMatrix := ⟨sddOut.shape, geluOutData, topo.id, false⟩
        let xq := Val.qData x.val numBits
        let xs := Val.qScales x.val numBits
        (geluOut, [xq, xs, hiddenQ, hiddenScales])
    let dsdOut := stkDsd stage.1 w2.val
    .ok (dsdOut,
      ⟨topo.shape, numBits, stage.2 ++ [w1.val, w2.val] ++ topo.tensors, topo.id⟩)

/-- Modelled from the spec: the naive sequential composition
`dense_sparse_dense(gelu(sampled_dense_dense(x, w1 transposed, topo)), w2)`
against which the Memory-Optimized Operator's forward output is compared. -/
def naiveForward (x w1 w2 : Val) (topo : Topo) : Val :=
  stkDsd (geluMat (stkSdd x (.tr w1) topo)) w2

/-- A store of dense data buffers: an allocation counter and the contents
of every buffer identifier. -/
structure Mem where
  next : Nat
  store : Nat → Val

/-- Allocate a fresh buffer holding `v`; returns its identifier. -/
def Mem.alloc (m : Mem) (v : Val) : Nat × Mem :=
  (m.next, ⟨m.next + 1, fun i => if i = m.next then v else m.store i⟩)

/-- Overwrite the contents of buffer `b` with `v` (an in-place kernel
writing its output into an existing allocation). -/
def Mem.write (m : Mem) (b : Nat) (v : Val) : Mem :=
  ⟨m.next, fun i => if i = b then v else m.store i⟩

/-- Read the current contents of buffer `b`. -/
def Mem.read (m : Mem) (b : Nat) : Val := m.store b

/-- Result of `MemoryOptimizedMLP.backward`: the five returned gradients
(`dx, dw1, dw2, None, None`, each as an optional buffer identifier), the
buffer of the re-derived `gelu_out`, the buffer `dgelu_out` was written
into, and the final store. -/
structure BwdOut where
  dx : Option Nat
  dw1 : Option Nat
  dw2 : Option Nat
  dtopo : Option Nat
  dnumBits : Option Nat
  geluBuf : Nat
  dgeluBuf : Nat
  mem : Mem

/-- Backward pass of the Memory-Optimized Operator
(`MemoryOptimizedMLP.backward`) over the buffer store.  Eagerly requires
gradients for all three differentiable inputs; re-derives `gelu_out`
(recomputing GELU from the saved `sdd_out` data when `num_bits = -1`,
dequantizing the saved hidden buffer otherwise); computes `dw2`; writes
`dgelu_out` into the `gelu_out` buffer via the raw sdd kernel; computes
`dsdd_out` in place in that same buffer (in-place GELU backward, resp.
fused dequantize-GELU-backward); computes `dw1`; and writes `dx` into the
incoming `ddsd_out` buffer via the raw dsd kernel. -/
def moBackward (ctx : Ctx) (needs : Bool × Bool × Bool) (ddsdBuf : Nat)
    (m0 : Mem) : Except Err BwdOut :=
  if ¬ (needs.1 = true ∧ needs.2.1 = true ∧ needs.2.2 = true) then
    .error .needsGrad
  else if ctx.numBits = -1 then
    match ctx.saved with
    | [x, sddOutData, w1, w2, _t0, _t1, _t2, _t3, _t4, _t5] =>
      let tid := ctx.topoId
      let p1 := m0.alloc (Val.geluF sddOutData)
      let gBuf := p1.1
      let m1 := p1.2
      let p2 := m1.alloc (Val.dsdData true (m1.read gBuf) tid (m1.read ddsdBuf))
      let dw2Buf := p2.1
      let m2 := p2.2
      let m3 := m2.write gBuf (Val.ksdd (m2.read ddsdBuf) (Val.tr w2) tid)
      let m4 := m3.write gBuf (Val.geluB (m3.read gBuf) sddOutData)
      let p5 := m4.alloc (Val.dsdData true (m4.read gBuf) tid x)
      let dw1Buf := p5.1
      let m5 := p5.2
      let m6 := m5.write ddsdBuf (Val.kdsd (m5.read gBuf) tid w1)
      .ok ⟨some ddsdBuf, some dw1Buf, some dw2Buf, none, none, gBuf, gBuf, m6⟩
    | _ => .error .malformedCtx
  else
    match ctx.saved with
    | [xq, xs, hq, hs, w1, w2, _t0, _t1, _t2, _t3, _t4, _t5] =>
      let tid := ctx.topoId
      let nb := ctx.numBits
      let p1 := m0.alloc (Val.deqGeluF hq hs nb)
      let gBuf := p1.1
      let m1 := p1.2
      let p2 := m1.alloc (Val.dsdData true (m1.read gBuf) tid (m1.read ddsdBuf))
      let dw2Buf := p2.1
      let m2 := p2.2
      let m3 := m2.write gBuf (Val.ksdd (m2.read ddsdBuf) (Val.tr w2) tid)
      let m4 := m3.write gBuf (Val.deqGeluB hq hs nb (m3.read gBuf))
      let p4 := m4.alloc (Val.deq xq xs nb)
      let xBuf := p4.1
      let m4x := p4.2
      let p5 := m4x.alloc (Val.dsdData true (m4x.read gBuf) tid (m4x.read xBuf))
      let dw1Buf := p5.1
      let m5 := p5.2
      let m6 := m5.write ddsdBuf (Val.kdsd (m5.read gBuf) tid w1)
      .ok ⟨some ddsdBuf, some dw1Buf, some dw2Buf, none, none, gBuf, gBuf, m6⟩
    | _ => .error .malformedCtx

/-- Reference backward semantics with no buffer reuse: every intermediate
is a fresh term, so the result can only depend on the saved context and
the incoming gradient value, never on the prior contents of any reused
buffer.  Returns `(dx, dw1, dw2)`. -/
def moBackwardPure (ctx : Ctx) (ddsdVal : Val) : Option (Val × Val × Val) :=
  if ctx.numBits = -1 then
    match ctx.saved with
    | [x, sddOutData, w1, w2, _t0, _t1, _t2, _t3, _t4, _t5] =>
      let tid := ctx.topoId
      let geluOut := Val.geluF sddOutData
      let dw2 := Val.dsdData true geluOut tid ddsdVal
      let dgelu := Val.ksdd ddsdVal (Val.tr w2) tid
      let dsdd := Val.geluB dgelu sddOutData
      let dw1 := Val.dsdData true dsdd tid x
      let dx := Val.kdsd dsdd tid w1
      some (dx, dw1, dw2)
    | _ => none
  else
    match ctx.saved with
    | [xq, xs, hq, hs, w1, w2, _t0, _t1, _t2, _t3, _t4, _t5] =>
      let tid := ctx.topoId
      let nb := ctx.numBits
      let dgelu := Val.ksdd ddsdVal (Val.tr w2) tid
      let dsdd := Val.deqGeluB hq hs nb dgelu
      let xv := Val.deq xq xs nb
      let dw1 := Val.dsdData true dsdd tid xv
      let dw2 := Val.dsdData true (Val.deqGeluF hq hs nb) tid ddsdVal
      let dx := Val.kdsd dsdd tid w1
      some (dx, dw1, dw2)
    | _ => none

/-- Configuration (`megablocks.layers.arguments.Arguments` together with
the `mpu` rank/degree queries it feeds; the `arguments`/`mpu` modules are
not under src/, so the sharding degrees and ranks are modelled from the
spec as explicit fields, per the sharding-calculator contract
`(num_experts, ffn_hidden_size, hidden_size, expert_sharding_degree,
hidden_sharding_degree, rank)`). -/
structure Arguments where
  moeNumExperts : Nat
  ffnHiddenSize : Nat
  hiddenSize : Nat
  moeExpertModelParallelism : Bool
  moeWeightParallelism : Bool
  memoryOptimizedMlp : Bool
  quantizeActivationsNumBits : Int
  expertShardingDegree : Nat
  hiddenShardingDegree : Nat
  expertParallelRank : Nat
  expertParallelWorldSize : Nat
  weightParallelWorldSize : Nat
  weightParallelRank : Nat
  weightParallelGroup : Nat
  deriving DecidableEq

/-- Source `create_moe_expert_weights`: materialize the full master weight
tensor (`init e r c` is the value the fixed, seeded initializer writes at
master position `(e, r, c)`), then, when expert model parallelism is on,
slice out this rank's contiguous chunk.  The divisibility checks are
modelled from the spec (they live in the absent `mpu` module): violation
of `num_experts % expert_sharding_degree == 0` or
`ffn_hidden_size % hidden_sharding_degree == 0` is a fatal error. -/
def create_moe_expert_weights {α : Type} (args : Arguments)
    (init : Nat → Nat → Nat → α) : Except Err (Nat → Nat → Nat → α) :=
  let master := init
  if ¬ args.moeExpertModelParallelism then .ok master
  else if args.moeNumExperts % args.expertShardingDegree ≠ 0 then
    .error .indivisible
  else if args.ffnHiddenSize % args.hiddenShardingDegree ≠ 0 then
    .error .indivisible
  else
    let esd := args.expertShardingDegree
    let hsd := args.hiddenShardingDegree
    let rank := args.expertParallelRank
    let expertRank := rank % esd
    let numExpertsPerRank := args.moeNumExperts / esd
    let startExpert := expertRank * numExpertsPerRank
    let rowRank := rank / esd
    let numRowsPerRank := args.ffnHiddenSize / hsd
    let startRow := rowRank * numRowsPerRank
    .ok (fun e r c => master (startExpert + e) (startRow + r) c)

/-- Local expert count of the tensor returned by
`create_moe_expert_weights` (its first dimension). -/
def localExperts (args : Arguments) : Nat :=
  if args.moeExpertModelParallelism then
    args.moeNumExperts / args.expertShardingDegree
  else args.moeNumExperts

/-- Local per-expert row count of the tensor returned by
`create_moe_expert_weights` (its second dimension). -/
def localRows (args : Arguments) : Nat :=
  if args.moeExpertModelParallelism then
    args.ffnHiddenSize / args.hiddenShardingDegree
  else args.ffnHiddenSize

/-- Source `create_dmoe_expert_weights`: flatten the (already
expert-sharded) weights to a 2D `[rows, columns]` layout with
`weights.view([-1, columns])`, then, under weight parallelism, slice a
contiguous row range for this weight-parallel rank; `rows` must be
divisible by the weight-parallel world size (the source's `assert`). -/
def create_dmoe_expert_weights {α : Type} (args : Arguments)
    (init : Nat → Nat → Nat → α) : Except Err (Nat → Nat → α) :=
  match create_moe_expert_weights args init with
  | .error e => .error e
  | .ok w =>
    let rowsPerExpert := localRows args
    let flat := fun i c => w (i / rowsPerExpert) (i % rowsPerExpert) c
    let rows := localExperts args * rowsPerExpert
    if ¬ args.moeWeightParallelism then .ok flat
    else if rows % args.weightParallelWorldSize ≠ 0 then .error .indivisible
    else
      let numRowsPerRank := rows / args.weightParallelWorldSize
      let startRow := args.weightParallelRank * numRowsPerRank
      .ok (fun i c => flat (startRow + i) c)

/-- Experts per expert-parallel rank under sharding:
`num_experts / expert_sharding_degree`. -/
def expertsPerRank (args : Arguments) : Nat :=
  args.moeNumExperts / args.expertShardingDegree

/-- Rows of the hidden dimension per rank under sharding:
`ffn_hidden_size / hidden_sharding_degree`. -/
def rowsPerRank (args : Arguments) : Nat :=
  args.ffnHiddenSize / args.hiddenShardingDegree

/-- Rows of the local flattened weight per weight-parallel rank. -/
def wpRowsPerRank (args : Arguments) : Nat :=
  expertsPerRank args * rowsPerRank args / args.weightParallelWorldSize

/-- The expert-parallel rank whose shard covers master position `(e, r)`:
experts are assigned to ranks first, so the rank index varies fastest in
the expert dimension. -/
def reconstructRank (args : Arguments) (e r : Nat) : Nat :=
  r / rowsPerRank args * args.expertShardingDegree + e / expertsPerRank args

/-- The row index, within the local flattened `[rows, columns]` view of an
expert-sharded weight, of master position `(e, r)`. -/
def flatLocalIndex (args : Arguments) (e r : Nat) : Nat :=
  e % expertsPerRank args * rowsPerRank args + r % rowsPerRank args

/-- Source `ScaleGradient.forward`: stores the scale in the context and
returns `x` unchanged. -/
def ScaleGradient.forward (x : Val) (scale : ℚ) : Val × ℚ := (x, scale)

/-- Source `ScaleGradient.backward`: returns `grad * ctx.scale` and `None`
for the scale argument's gradient. -/
def ScaleGradient.backward (scale : ℚ) (grad : Val) : Val × Option ℚ :=
  (.smul scale grad, none)

/-- A weight as used by a forward pass: either the raw parameter, or the
parameter wrapped by an application of `scale_gradient` with a stored
scale. -/
inductive GradScaled where
  | plain : Val → GradScaled
  | applied : Val → ℚ → GradScaled
  deriving DecidableEq

/-- The forward value of a (possibly gradient-scale-wrapped) weight. -/
def GradScaled.value : GradScaled → Val
  | .plain w => w
  | .applied w s => (ScaleGradient.forward w s).1

/-- The `gradient_scale` attribute set by the expert modules' `__init__`:
`1 / expert_parallel_world_size` when expert model parallelism is active,
otherwise `None`. -/
def gradientScale (args : Arguments) : Option ℚ :=
  if args.moeExpertModelParallelism then
    some (1 / (args.expertParallelWorldSize : ℚ))
  else none

/-- Source `SparseMLP.scale_grad` (and the identical `MLP.scale_grad`):
return the weight unchanged when `gradient_scale` is `None`, otherwise
apply `scale_gradient` with the stored scale. -/
def scaleGrad (args : Arguments) (w : Val) : GradScaled :=
  match gradientScale args with
  | none => .plain w
  | some s => .applied w s

/-- The call `SparseMLP.forward` dispatches to: the weight-parallel
memory-optimized collective, the weight-parallel plain collective, the
Memory-Optimized Operator, or the plain block-sparse path.  Each variant
records exactly the arguments passed at the call site. -/
inductive ForwardCall where
  | wpMemoryOptimized : Val → GradScaled → GradScaled → Topo → Nat → ForwardCall
  | wpPlain : Val → GradScaled → GradScaled → Topo → Nat → ForwardCall
  | memoryOptimized : Val → GradScaled → GradScaled → Topo → Int → ForwardCall
  | plainPath : Val → GradScaled → GradScaled → Topo → ForwardCall
  deriving DecidableEq

/-- Source `SparseMLP.parallel_forward`: rescales the weights and calls
`wp.memory_optimized_weight_parallel_mlp(x, w1, w2, topo, group)` when
`memory_optimized_mlp` is set (note: no `num_bits` argument), else the
plain weight-parallel matmul pair. -/
def sparseMLPParallelForward (args : Arguments) (w1v w2v x : Val)
    (topo : Topo) : ForwardCall :=
  let group := args.weightParallelGroup
  let w1 := scaleGrad args w1v
  let w2 := scaleGrad args w2v
  if args.memoryOptimizedMlp then .wpMemoryOptimized x w1 w2 topo group
  else .wpPlain x w1 w2 topo group

/-- Source `SparseMLP.forward`: dispatches on `moe_weight_parallelism` and
`memory_optimized_mlp`; only the non-weight-parallel memory-optimized
branch passes `args.quantize_activations_num_bits`. -/
def sparseMLPForward (args : Arguments) (w1v w2v x : Val)
    (topo : Topo) : ForwardCall :=
  let w1 := scaleGrad args w1v
  let w2 := scaleGrad args w2v
  if args.moeWeightParallelism then
    sparseMLPParallelForward args w1v w2v x topo
  else if args.memoryOptimizedMlp then
    .memoryOptimized x w1 w2 topo args.quantizeActivationsNumBits
  else .plainPath x w1 w2 topo

/-- The saved-context invariant's un-quantized representation: the first
saved tensors are the original input and the first matmul's output data. -/
def holdsUnquantized (ctx : Ctx) (x sddData : Val) : Prop :=
  ctx.saved.take 2 = [x, sddData]

/-- The saved-context invariant's quantized representation: the first
saved tensors are the quantized input with its scales and the quantized
hidden activation with its scales. -/
def holdsQuantized (ctx : Ctx) (nb : Int) (x sddData : Val) : Prop :=
  ctx.saved.take 4 = [.qData x nb, .qScales x nb,
    .qFusedData sddData nb, .qFusedScales sddData nb]

/-- Sample contiguous input for concrete witnesses. -/
def xS : Tensor := ⟨.base 0, true⟩

/-- Sample contiguous first weight for concrete witnesses. -/
def w1S : Tensor := ⟨.base 1, true⟩

/-- Sample contiguous second weight for concrete witnesses. -/
def w2S : Tensor := ⟨.base 2, true⟩

/-- Sample topology for concrete witnesses. -/
def topoS : Topo := ⟨7, (2, 3)⟩

/-- Sample distributed configuration for concrete witnesses: 4 experts
sharded 2 ways, ffn hidden size 6 sharded 3 ways, weight-parallel world
size 2. -/
def argsS : Arguments :=
  ⟨4, 6, 2, true, true, false, -1, 2, 3, 5, 6, 2, 1, 0⟩

/-- Sample deterministic master-weight initializer for witnesses. -/
def initS : Nat → Nat → Nat → Nat := fun e r c => e * 100 + r * 10 + c

/-- Sample configuration with weight parallelism and the memory-optimized
path both enabled. -/
def argsWM : Arguments :=
  ⟨4, 6, 2, true, true, true, -1, 2, 3, 5, 6, 2, 1, 0⟩

/-- Sample configuration with the memory-optimized path enabled but
weight parallelism disabled, quantizing activations to 8 bits. -/
def argsM : Arguments :=
  ⟨4, 6, 2, true, false, true, 8, 2, 3, 5, 6, 2, 1, 0⟩

/-- The output produced by the sample un-quantized forward call. -/
def outS : Val := naiveForward xS.val w1S.val w2S.val topoS

/-- The context saved by the sample un-quantized forward call. -/
def ctxS : Ctx :=
  ⟨topoS.shape, -1, [xS.val, Val.sddData xS.val (.tr w1S.val) topoS.id,
    w1S.val, w2S.val] ++ topoS.tensors, topoS.id⟩

/-- A sample initial store for concrete backward witnesses: one allocated
buffer (the incoming output gradient) and junk beyond it. -/
def memS : Mem := ⟨1, fun _ => .base 9⟩

theorem moForward_ok_inv (x w1 w2 : Tensor) (topo : Topo) (nb : Int)
    (out : Val) (ctx : Ctx)
    (hfwd : moForward x w1 w2 topo nb = .ok (out, ctx)) :
    (nb = -1 ∨ nb = 4 ∨ nb = 8) ∧
    ctx = ⟨topo.shape, nb,
      (if nb = -1 then
        [x.val, Val.sddData x.val (.tr w1.val) topo.id]
      else
        [Val.qData x.val nb, Val.qScales x.val nb,
         Val.qFusedData (Val.sddData x.val (.tr w1.val) topo.id) nb,
         Val.qFusedScales (Val.sddData x.val (.tr w1.val) topo.id) nb]) ++
        [w1.val, w2.val] ++ topo.tensors, topo.id⟩ := by
  by_cases h1 : (x.contiguous = true ∧ w1.contiguous = true ∧ w2.contiguous = true)
  · by_cases h2 : (nb = -1 ∨ nb = 4 ∨ nb = 8)
    · unfold moForward at hfwd
      rw [if_neg (not_not_intro h1), if_neg (not_not_intro h2)] at hfwd
      refine ⟨h2, ?_⟩
      by_cases hnb : nb = -1
      · subst hnb
        simp only [stkSdd, geluMat, stkDsd, ite_true, Except.ok.injEq,
          Prod.mk.injEq] at hfwd
        simp only [ite_true]
        exact hfwd.2.symm
      · rw [if_neg hnb]
        simp only [stkSdd, geluMat, stkDsd, hnb, ite_false, Except.ok.injEq,
          Prod.mk.injEq] at hfwd
        exact hfwd.2.symm
    · exfalso
      unfold moForward at hfwd
      rw [if_neg (not_not_intro h1), if_pos h2] at hfwd
      exact absurd hfwd (by simp)
  · exfalso
    unfold moForward at hfwd
    rw [if_pos h1] at hfwd
    exact absurd hfwd (by simp)

/-- Claim C1: for every contiguous dense input `x`, contiguous weights
`w1` and `w2`, and block-sparse topology `topo`, the Memory-Optimized
Operator's forward output with `num_bits = -1` equals the naive sequential
composition `dense_sparse_dense(gelu(sampled_dense_dense(x, w1
transposed, topo)), w2)`. -/
theorem c1_forward_equiv (x w1 w2 : Tensor) (topo : Topo)
    (hx : x.contiguous = true) (hw1 : w1.contiguous = true)
    (hw2 : w2.contiguous = true) :
    (moForward x w1 w2 topo (-1)).map Prod.fst =
      .ok (naiveForward x.val w1.val w2.val topo) := by
  simp [moForward, hx, hw1, hw2, naiveForward, stkSdd, geluMat, stkDsd,
    Except.map]

theorem c1_forward_equiv_witness :
    xS.contiguous = true ∧ w1S.contiguous = true ∧ w2S.contiguous = true ∧
    (moForward xS w1S w2S topoS (-1)).map Prod.fst =
      .ok (naiveForward xS.val w1S.val w2S.val topoS) :=
  ⟨rfl, rfl, rfl, c1_forward_equiv xS w1S w2S topoS rfl rfl rfl⟩

/-- Claim C3: the Memory-Optimized Operator's forward raises a fatal
error if and only if at least one of `x`, `w1`, `w2` is non-contiguous or
`num_bits` is not in `{-1, 4, 8}`; the checks are eager, so in the error
case no output is produced and no context is saved (the result carries no
`(out, ctx)` pair). -/
theorem c3_forward_error_iff (x w1 w2 : Tensor) (topo : Topo) (nb : Int) :
    (∃ e, moForward x w1 w2 topo nb = .error e) ↔
      (x.contiguous = false ∨ w1.contiguous = false ∨ w2.contiguous = false ∨
        (nb ≠ -1 ∧ nb ≠ 4 ∧ nb ≠ 8)) := by
  by_cases h1 : (x.contiguous = true ∧ w1.contiguous = true ∧ w2.contiguous = true)
  · by_cases h2 : (nb = -1 ∨ nb = 4 ∨ nb = 8)
    · have hne : ∀ e, moForward x w1 w2 topo nb ≠ .error e := by
        intro e he
        unfold moForward at he
        rw [if_neg (not_not_intro h1), if_neg (not_not_intro h2)] at he
        exact absurd he (by simp)
      constructor
      · rintro ⟨e, he⟩
        exact absurd he (hne e)
      · rintro (h | h | h | h)
        · exact absurd h1.1 (by simp [h])
        · exact absurd h1.2.1 (by simp [h])
        · exact absurd h1.2.2 (by simp [h])
        · rcases h2 with hnb | hnb | hnb
          · exact absurd hnb h.1
          · exact absurd hnb h.2.1
          · exact absurd hnb h.2.2
    · constructor
      · intro _
        push_neg at h2
        exact Or.inr (Or.inr (Or.inr h2))
      · intro _
        refine ⟨.badNumBits, ?_⟩
        unfold moForward
        rw [if_neg (not_not_intro h1), if_pos h2]
  · constructor
    · intro _
      simp only [not_and_or, Bool.not_eq_true] at h1
      tauto
    · intro _
      refine ⟨.notContiguous, ?_⟩
      unfold moForward
      rw [if_pos h1]

theorem c3_forward_error_iff_witness :
    (∃ e, moForward xS w1S w2S topoS 3 = .error e) ↔
      (xS.contiguous = false ∨ w1S.contiguous = false ∨
        w2S.contiguous = false ∨
        ((3 : Int) ≠ -1 ∧ (3 : Int) ≠ 4 ∧ (3 : Int) ≠ 8)) :=
  c3_forward_error_iff xS w1S w2S topoS 3

/-- Claim C2: for every successful forward call of the Memory-Optimized
Operator (on distinct leaf input tensors), the saved context holds exactly
one of two representations: when `num_bits = -1` it holds the original
input `x` and the first matmul's output data (and no quantized buffers);
when `num_bits` is 4 or 8 it holds the quantized input with its scales and
the quantized hidden activation with its scales (and no full-precision
copies of `x`, of the pre-activation `sdd_out` data, or of the GELU
output); it never holds both representations simultaneously. -/
theorem c2_saved_context (x w1 w2 : Tensor) (topo : Topo) (nb : Int)
    (a b c : Nat) (hva : x.val = .base a) (hvb : w1.val = .base b)
    (hvc : w2.val = .base c) (hab : a ≠ b) (hac : a ≠ c)
    (out : Val) (ctx : Ctx)
    (hfwd : moForward x w1 w2 topo nb = .ok (out, ctx)) :
    (nb = -1 →
      ctx.saved = [x.val, Val.sddData x.val (.tr w1.val) topo.id,
        w1.val, w2.val] ++ topo.tensors ∧
      holdsUnquantized ctx x.val (Val.sddData x.val (.tr w1.val) topo.id) ∧
      ¬ holdsQuantized ctx nb x.val (Val.sddData x.val (.tr w1.val) topo.id) ∧
      ∀ v ∈ ctx.saved, v.isQuantBuf = false) ∧
    (nb ≠ -1 →
      (nb = 4 ∨ nb = 8) ∧
      ctx.saved = [Val.qData x.val nb, Val.qScales x.val nb,
        Val.qFusedData (Val.sddData x.val (.tr w1.val) topo.id) nb,
        Val.qFusedScales (Val.sddData x.val (.tr w1.val) topo.id) nb,
        w1.val, w2.val] ++ topo.tensors ∧
      holdsQuantized ctx nb x.val (Val.sddData x.val (.tr w1.val) topo.id) ∧
      ¬ holdsUnquantized ctx x.val (Val.sddData x.val (.tr w1.val) topo.id) ∧
      x.val ∉ ctx.saved ∧
      Val.sddData x.val (.tr w1.val) topo.id ∉ ctx.saved ∧
      Val.qFusedFwd (Val.sddData x.val (.tr w1.val) topo.id) nb ∉ ctx.saved) := by
  obtain ⟨hnbv, hctx⟩ := moForward_ok_inv x w1 w2 topo nb out ctx hfwd
  constructor
  · intro hnb
    subst hnb
    simp only [ite_true] at hctx
    subst hctx
    refine ⟨rfl, rfl, ?_, ?_⟩
    · simp [holdsQuantized, hva]
    · intro v hv
      simp only [Topo.tensors, hva, hvb, hvc, List.cons_append, List.nil_append,
        List.mem_cons, List.not_mem_nil, or_false] at hv
      rcases hv with h | h | h | h | h | h | h | h | h | h <;>
        simp [h, Val.isQuantBuf]
  · intro hnb
    have h48 : nb = 4 ∨ nb = 8 := by
      rcases hnbv with h | h | h
      · exact absurd h hnb
      · exact Or.inl h
      · exact Or.inr h
    rw [if_neg hnb] at hctx
    subst hctx
    refine ⟨h48, rfl, rfl, ?_, ?_, ?_, ?_⟩
    · simp [holdsUnquantized, hva]
    · simp [Topo.tensors, hva, hvb, hvc, hab, hac]
    · simp [Topo.tensors, hva, hvb, hvc]
    · simp [Topo.tensors, hva, hvb, hvc]

theorem c2_saved_context_witness :
    (moForward xS w1S w2S topoS (-1) =
      .ok (naiveForward xS.val w1S.val w2S.val topoS,
        ⟨topoS.shape, -1, [xS.val, Val.sddData xS.val (.tr w1S.val) topoS.id,
          w1S.val, w2S.val] ++ topoS.tensors, topoS.id⟩) ∧
      holdsUnquantized
        ⟨topoS.shape, -1, [xS.val, Val.sddData xS.val (.tr w1S.val) topoS.id,
          w1S.val, w2S.val] ++ topoS.tensors, topoS.id⟩
        xS.val (Val.sddData xS.val (.tr w1S.val) topoS.id)) ∧
    (moForward xS w1S w2S topoS 8 =
      .ok (stkDsd ⟨topoS.shape,
          Val.qFusedFwd (Val.sddData xS.val (.tr w1S.val) topoS.id) 8,
          topoS.id, false⟩ w2S.val,
        ⟨topoS.shape, 8, [Val.qData xS.val 8, Val.qScales xS.val 8,
          Val.qFusedData (Val.sddData xS.val (.tr w1S.val) topoS.id) 8,
          Val.qFusedScales (Val.sddData xS.val (.tr w1S.val) topoS.id) 8,
          w1S.val, w2S.val] ++ topoS.tensors, topoS.id⟩) ∧
      holdsQuantized
        ⟨topoS.shape, 8, [Val.qData xS.val 8, Val.qScales xS.val 8,
          Val.qFusedData (Val.sddData xS.val (.tr w1S.val) topoS.id) 8,
          Val.qFusedScales (Val.sddData xS.val (.tr w1S.val) topoS.id) 8,
          w1S.val, w2S.val] ++ topoS.tensors, topoS.id⟩
        8 xS.val (Val.sddData xS.val (.tr w1S.val) topoS.id)) := by
  have h1 := c2_saved_context xS w1S w2S topoS (-1) 0 1 2 rfl rfl rfl
    (by decide) (by decide)
    (naiveForward xS.val w1S.val w2S.val topoS)
    ⟨topoS.shape, -1, [xS.val, Val.sddData xS.val (.tr w1S.val) topoS.id,
      w1S.val, w2S.val] ++ topoS.tensors, topoS.id⟩ rfl
  have h2 := c2_saved_context xS w1S w2S topoS 8 0 1 2 rfl rfl rfl
    (by decide) (by decide)
    (stkDsd ⟨topoS.shape,
      Val.qFusedFwd (Val.sddData xS.val (.tr w1S.val) topoS.id) 8,
      topoS.id, false⟩ w2S.val)
    ⟨topoS.shape, 8, [Val.qData xS.val 8, Val.qScales xS.val 8,
      Val.qFusedData (Val.sddData xS.val (.tr w1S.val) topoS.id) 8,
      Val.qFusedScales (Val.sddData xS.val (.tr w1S.val) topoS.id) 8,
      w1S.val, w2S.val] ++ topoS.tensors, topoS.id⟩ rfl
  exact ⟨⟨rfl, (h1.1 rfl).2.1⟩, ⟨rfl, (h2.2 (by decide)).2.2.1⟩⟩

/-- Claim C4: on a context saved by a successful forward call, the
Memory-Optimized Operator's backward raises a fatal error, before any
gradient computation, whenever a gradient is not required for one of the
three differentiable inputs `x`, `w1`, `w2`; when all three require
gradients it returns gradients for exactly those three, with `None` for
the topology and `num_bits` arguments. -/
theorem c4_backward_needs_grad (x w1 w2 : Tensor) (topo : Topo) (nb : Int)
    (out : Val) (ctx : Ctx)
    (hfwd : moForward x w1 w2 topo nb = .ok (out, ctx))
    (needs : Bool × Bool × Bool) (ddsdBuf : Nat) (m0 : Mem) :
    (¬ (needs.1 = true ∧ needs.2.1 = true ∧ needs.2.2 = true) →
      moBackward ctx needs ddsdBuf m0 = .error .needsGrad) ∧
    ((needs.1 = true ∧ needs.2.1 = true ∧ needs.2.2 = true) →
      ∃ r, moBackward ctx needs ddsdBuf m0 = .ok r ∧
        r.dx.isSome = true ∧ r.dw1.isSome = true ∧ r.dw2.isSome = true ∧
        r.dtopo = none ∧ r.dnumBits = none) := by
  obtain ⟨hnbv, hctx⟩ := moForward_ok_inv x w1 w2 topo nb out ctx hfwd
  constructor
  · intro hn
    unfold moBackward
    rw [if_pos hn]
  · intro hn
    subst hctx
    unfold moBackward
    rw [if_neg (not_not_intro hn)]
    by_cases hnb : nb = -1
    · subst hnb
      simp [Topo.tensors]
    · rw [if_neg hnb]
      simp [Topo.tensors, hnb]

theorem c4_backward_needs_grad_witness :
    (¬ ((false, true, true).1 = true ∧ (false, true, true).2.1 = true ∧
        (false, true, true).2.2 = true) ∧
      moBackward ctxS (false, true, true) 0 memS = .error .needsGrad) ∧
    ∃ r, moBackward ctxS (true, true, true) 0 memS = .ok r ∧
      r.dx.isSome = true ∧ r.dw1.isSome = true ∧ r.dw2.isSome = true ∧
      r.dtopo = none ∧ r.dnumBits = none := by
  have h := c4_backward_needs_grad xS w1S w2S topoS (-1) outS ctxS (by rfl)
  exact ⟨⟨by decide, (h (false, true, true) 0 memS).1 (by decide)⟩,
    (h (true, true, true) 0 memS).2 ⟨rfl, rfl, rfl⟩⟩

set_option maxHeartbeats 2000000 in
/-- Claim C9: in the Memory-Optimized Operator's backward pass on a
context saved by a successful forward call, the gradient of the GELU
output is written into the buffer holding the re-derived `gelu_out` (no
new allocation for it), and the returned input gradient `dx` is written
into the buffer of the incoming output gradient `ddsd_out`; and the
returned gradients coincide with the reference semantics that reuses no
buffer, for every initial store, so the prior contents of a reused buffer
are never read after being overwritten. -/
theorem c9_buffer_reuse (x w1 w2 : Tensor) (topo : Topo) (nb : Int)
    (out : Val) (ctx : Ctx)
    (hfwd : moForward x w1 w2 topo nb = .ok (out, ctx))
    (ddsdBuf : Nat) (m0 : Mem) (hb : ddsdBuf < m0.next) :
    ∃ r dxv dw1v dw2v b1 b2,
      moBackward ctx (true, true, true) ddsdBuf m0 = .ok r ∧
      moBackwardPure ctx (m0.read ddsdBuf) = some (dxv, dw1v, dw2v) ∧
      r.dw1 = some b1 ∧ r.dw2 = some b2 ∧
      r.dgeluBuf = r.geluBuf ∧
      r.dx = some ddsdBuf ∧
      r.mem.read ddsdBuf = dxv ∧ r.mem.read b1 = dw1v ∧ r.mem.read b2 = dw2v := by
  obtain ⟨hnbv, hctx⟩ := moForward_ok_inv x w1 w2 topo nb out ctx hfwd
  subst hctx
  unfold moBackward moBackwardPure
  rw [if_neg (not_not_intro ⟨rfl, rfl, rfl⟩)]
  by_cases hnb : nb = -1
  · subst hnb
    simp only [Topo.tensors, List.cons_append, List.nil_append, ite_true]
    refine ⟨_, _, _, _, _, _, rfl, rfl, rfl, rfl, rfl, rfl, ?_, ?_, ?_⟩ <;>
      simp only [Mem.read, Mem.write, Mem.alloc] <;>
      split_ifs <;> first | rfl | omega
  · simp only [hnb, ite_false, Topo.tensors, List.cons_append, List.nil_append]
    refine ⟨_, _, _, _, _, _, rfl, rfl, rfl, rfl, rfl, rfl, ?_, ?_, ?_⟩ <;>
      simp only [Mem.read, Mem.write, Mem.alloc] <;>
      split_ifs <;> first | rfl | omega

theorem c9_buffer_reuse_witness :
    (0 : Nat) < memS.next ∧
    ∃ r dxv dw1v dw2v b1 b2,
      moBackward ctxS (true, true, true) 0 memS = .ok r ∧
      moBackwardPure ctxS (memS.read 0) = some (dxv, dw1v, dw2v) ∧
      r.dw1 = some b1 ∧ r.dw2 = some b2 ∧
      r.dgeluBuf = r.geluBuf ∧
      r.dx = some 0 ∧
      r.mem.read 0 = dxv ∧ r.mem.read b1 = dw1v ∧ r.mem.read b2 = dw2v :=
  ⟨by decide,
    c9_buffer_reuse xS w1S w2S topoS (-1) outS ctxS (by rfl) 0 memS (by decide)⟩

theorem create_moe_ok {α : Type} (args : Arguments) (init : Nat → Nat → Nat → α)
    (hemp : args.moeExpertModelParallelism = true)
    (h1 : args.moeNumExperts % args.expertShardingDegree = 0)
    (h2 : args.ffnHiddenSize % args.hiddenShardingDegree = 0) :
    create_moe_expert_weights args init = .ok (fun e r c => init
      (args.expertParallelRank % args.expertShardingDegree *
        (args.moeNumExperts / args.expertShardingDegree) + e)
      (args.expertParallelRank / args.expertShardingDegree *
        (args.ffnHiddenSize / args.hiddenShardingDegree) + r) c) := by
  simp [create_moe_expert_weights, hemp, h1, h2]

theorem create_dmoe_ok {α : Type} (args : Arguments) (init : Nat → Nat → Nat → α)
    (hemp : args.moeExpertModelParallelism = true)
    (h1 : args.moeNumExperts % args.expertShardingDegree = 0)
    (h2 : args.ffnHiddenSize % args.hiddenShardingDegree = 0)
    (hwp : args.moeWeightParallelism = true)
    (h3 : (args.moeNumExperts / args.expertShardingDegree *
        (args.ffnHiddenSize / args.hiddenShardingDegree)) %
        args.weightParallelWorldSize = 0) :
    create_dmoe_expert_weights args init = .ok (fun i c =>
      let rpr := args.ffnHiddenSize / args.hiddenShardingDegree
      let nrpr := args.moeNumExperts / args.expertShardingDegree * rpr /
        args.weightParallelWorldSize
      let j := args.weightParallelRank * nrpr + i
      init (args.expertParallelRank % args.expertShardingDegree *
          (args.moeNumExperts / args.expertShardingDegree) + j / rpr)
        (args.expertParallelRank / args.expertShardingDegree * rpr + j % rpr)
        c) := by
  unfold create_dmoe_expert_weights
  rw [create_moe_ok args init hemp h1 h2]
  simp [localExperts, localRows, hemp, hwp, h3]

theorem shard_coord_left (esd epr rpr e r : Nat) (heE : e / epr < esd) :
    (r / rpr * esd + e / epr) % esd * epr + e % epr = e := by
  rw [Nat.mul_comm (r / rpr) esd, Nat.mul_add_mod, Nat.mod_eq_of_lt heE,
    Nat.mul_comm]
  exact Nat.div_add_mod e epr

theorem shard_coord_right (esd epr rpr e r : Nat) (hesd0 : 0 < esd)
    (heE : e / epr < esd) :
    (r / rpr * esd + e / epr) / esd * rpr + r % rpr = r := by
  rw [Nat.mul_comm (r / rpr) esd, Nat.mul_add_div hesd0,
    Nat.div_eq_of_lt heE, Nat.add_zero, Nat.mul_comm]
  exact Nat.div_add_mod r rpr

/-- Claim C6: for every rank, the sharding calculator assigns the
contiguous expert slice starting at `(rank % expert_sharding_degree) *
(num_experts / expert_sharding_degree)` and the contiguous row slice
starting at `(rank / expert_sharding_degree) * (ffn_hidden_size /
hidden_sharding_degree)`: experts are partitioned first (the rank index
varies fastest in the expert dimension) and every rank's assignment is a
contiguous slice of the full master weight tensor. -/
theorem c6_shard_assignment {α : Type} (args : Arguments)
    (init : Nat → Nat → Nat → α)
    (hemp : args.moeExpertModelParallelism = true)
    (h1 : args.moeNumExperts % args.expertShardingDegree = 0)
    (h2 : args.ffnHiddenSize % args.hiddenShardingDegree = 0) :
    create_moe_expert_weights args init = .ok (fun e r c => init
      (args.expertParallelRank % args.expertShardingDegree *
        (args.moeNumExperts / args.expertShardingDegree) + e)
      (args.expertParallelRank / args.expertShardingDegree *
        (args.ffnHiddenSize / args.hiddenShardingDegree) + r) c) :=
  create_moe_ok args init hemp h1 h2

theorem c6_shard_assignment_witness :
    argsS.moeExpertModelParallelism = true ∧
    argsS.moeNumExperts % argsS.expertShardingDegree = 0 ∧
    argsS.ffnHiddenSize % argsS.hiddenShardingDegree = 0 ∧
    create_moe_expert_weights argsS initS = .ok (fun e r c => initS
      (argsS.expertParallelRank % argsS.expertShardingDegree *
        (argsS.moeNumExperts / argsS.expertShardingDegree) + e)
      (argsS.expertParallelRank / argsS.expertShardingDegree *
        (argsS.ffnHiddenSize / argsS.hiddenShardingDegree) + r) c) :=
  ⟨rfl, rfl, rfl, c6_shard_assignment argsS initS rfl rfl rfl⟩

/-- Claim C5: for a fixed seeded initializer, the shards produced for all
ranks reconstruct exactly the single-rank unsharded initialization, for
both layouts: every master position `(e, r, c)` of the dense
batched-expert layout is held at the corresponding local position of the
rank `reconstructRank args e r` with exactly the master value
`init e r c`, and every flattened master row `i` of the block-sparse
layout is held at the corresponding local row of the expert-parallel /
weight-parallel rank pair determined by `i` with the master value; the
value at each master position is given by `init` alone, independent of
the chosen parallelism degrees. -/
theorem c5_sharding_determinism {α : Type} (args : Arguments)
    (init : Nat → Nat → Nat → α) (e r c i c2 : Nat)
    (hemp : args.moeExpertModelParallelism = true)
    (hwp : args.moeWeightParallelism = true)
    (hdE : args.moeNumExperts % args.expertShardingDegree = 0)
    (hdH : args.ffnHiddenSize % args.hiddenShardingDegree = 0)
    (hdW : (expertsPerRank args * rowsPerRank args) %
        args.weightParallelWorldSize = 0)
    (he : e < args.moeNumExperts) (hr : r < args.ffnHiddenSize)
    (hi : i < args.moeNumExperts * args.ffnHiddenSize) :
    (∃ f, create_moe_expert_weights
        {args with expertParallelRank := reconstructRank args e r} init =
          .ok f ∧
      f (e % expertsPerRank args) (r % rowsPerRank args) c = init e r c) ∧
    (∃ g, create_dmoe_expert_weights
        {args with
          expertParallelRank :=
            reconstructRank args (i / args.ffnHiddenSize)
              (i % args.ffnHiddenSize),
          weightParallelRank :=
            flatLocalIndex args (i / args.ffnHiddenSize)
              (i % args.ffnHiddenSize) / wpRowsPerRank args} init = .ok g ∧
      g (flatLocalIndex args (i / args.ffnHiddenSize)
          (i % args.ffnHiddenSize) % wpRowsPerRank args) c2 =
        init (i / args.ffnHiddenSize) (i % args.ffnHiddenSize) c2) := by
  have hesd0 : 0 < args.expertShardingDegree := by
    rcases Nat.eq_zero_or_pos args.expertShardingDegree with h | h
    · rw [h, Nat.mod_zero] at hdE
      omega
    · exact h
  have hhsd0 : 0 < args.hiddenShardingDegree := by
    rcases Nat.eq_zero_or_pos args.hiddenShardingDegree with h | h
    · rw [h, Nat.mod_zero] at hdH
      omega
    · exact h
  have hnE : args.expertShardingDegree *
      (args.moeNumExperts / args.expertShardingDegree) = args.moeNumExperts :=
    Nat.mul_div_cancel' (Nat.dvd_of_mod_eq_zero hdE)
  have hff : args.hiddenShardingDegree *
      (args.ffnHiddenSize / args.hiddenShardingDegree) = args.ffnHiddenSize :=
    Nat.mul_div_cancel' (Nat.dvd_of_mod_eq_zero hdH)
  have hffn0 : 0 < args.ffnHiddenSize := by
    rcases Nat.eq_zero_or_pos args.ffnHiddenSize with h | h
    · rw [h, Nat.mul_zero] at hi
      omega
    · exact h
  have hepr0 : 0 < args.moeNumExperts / args.expertShardingDegree := by
    rcases Nat.eq_zero_or_pos (args.moeNumExperts / args.expertShardingDegree)
      with h | h
    · rw [h, Nat.mul_zero] at hnE
      omega
    · exact h
  have hrpr0 : 0 < args.ffnHiddenSize / args.hiddenShardingDegree := by
    rcases Nat.eq_zero_or_pos (args.ffnHiddenSize / args.hiddenShardingDegree)
      with h | h
    · rw [h, Nat.mul_zero] at hff
      omega
    · exact h
  have heE : e / (args.moeNumExperts / args.expertShardingDegree) <
      args.expertShardingDegree :=
    (Nat.div_lt_iff_lt_mul hepr0).mpr (by rw [hnE]; exact he)
  constructor
  · refine ⟨_, create_moe_ok _ init hemp hdE hdH, ?_⟩
    simp only [reconstructRank, expertsPerRank, rowsPerRank]
    rw [shard_coord_left _ _ _ _ _ heE,
      shard_coord_right _ _ _ _ _ hesd0 heE]
  · have he' : i / args.ffnHiddenSize < args.moeNumExperts :=
      (Nat.div_lt_iff_lt_mul hffn0).mpr hi
    have hr' : i % args.ffnHiddenSize < args.ffnHiddenSize :=
      Nat.mod_lt _ hffn0
    have heE' : i / args.ffnHiddenSize /
        (args.moeNumExperts / args.expertShardingDegree) <
        args.expertShardingDegree :=
      (Nat.div_lt_iff_lt_mul hepr0).mpr (by rw [hnE]; exact he')
    refine ⟨_, create_dmoe_ok _ init hemp hdE hdH hwp hdW, ?_⟩
    simp only [reconstructRank, flatLocalIndex, expertsPerRank, rowsPerRank,
      wpRowsPerRank]
    have h4 : ∀ j n : Nat, j / n * n + j % n = j := by
      intro j n
      rw [Nat.mul_comm]
      exact Nat.div_add_mod j n
    rw [h4]
    have h5 : (i / args.ffnHiddenSize %
          (args.moeNumExperts / args.expertShardingDegree) *
          (args.ffnHiddenSize / args.hiddenShardingDegree) +
        i % args.ffnHiddenSize %
          (args.ffnHiddenSize / args.hiddenShardingDegree)) /
        (args.ffnHiddenSize / args.hiddenShardingDegree) =
        i / args.ffnHiddenSize %
          (args.moeNumExperts / args.expertShardingDegree) := by
      rw [Nat.mul_comm
          (i / args.ffnHiddenSize %
            (args.moeNumExperts / args.expertShardingDegree))
          (args.ffnHiddenSize / args.hiddenShardingDegree),
        Nat.mul_add_div hrpr0,
        Nat.div_eq_of_lt (Nat.mod_lt _ hrpr0), Nat.add_zero]
    have h6 : (i / args.ffnHiddenSize %
          (args.moeNumExperts / args.expertShardingDegree) *
          (args.ffnHiddenSize / args.hiddenShardingDegree) +
        i % args.ffnHiddenSize %
          (args.ffnHiddenSize / args.hiddenShardingDegree)) %
        (args.ffnHiddenSize / args.hiddenShardingDegree) =
        i % args.ffnHiddenSize %
          (args.ffnHiddenSize / args.hiddenShardingDegree) := by
      rw [Nat.mul_comm
          (i / args.ffnHiddenSize %
            (args.moeNumExperts / args.expertShardingDegree))
          (args.ffnHiddenSize / args.hiddenShardingDegree),
        Nat.mul_add_mod]
      exact Nat.mod_mod_of_dvd _ dvd_rfl
    rw [h5, h6]
    rw [shard_coord_left _ _ _ _ _ heE',
      shard_coord_right _ _ _ _ _ hesd0 heE']

theorem c5_sharding_determinism_witness :
    (∃ f, create_moe_expert_weights
        {argsS with expertParallelRank := reconstructRank argsS 3 5} initS =
          .ok f ∧
      f (3 % expertsPerRank argsS) (5 % rowsPerRank argsS) 1 = initS 3 5 1) ∧
    (∃ g, create_dmoe_expert_weights
        {argsS with
          expertParallelRank :=
            reconstructRank argsS (17 / argsS.ffnHiddenSize)
              (17 % argsS.ffnHiddenSize),
          weightParallelRank :=
            flatLocalIndex argsS (17 / argsS.ffnHiddenSize)
              (17 % argsS.ffnHiddenSize) / wpRowsPerRank argsS} initS =
          .ok g ∧
      g (flatLocalIndex argsS (17 / argsS.ffnHiddenSize)
          (17 % argsS.ffnHiddenSize) % wpRowsPerRank argsS) 0 =
        initS (17 / argsS.ffnHiddenSize) (17 % argsS.ffnHiddenSize) 0) :=
  c5_sharding_determinism argsS initS 3 5 1 17 0 rfl rfl (by decide)
    (by decide) (by decide) (by decide) (by decide) (by decide)

/-- Claim C7: constructing the flattened block-sparse expert weights
fails fatally exactly when a sharding dimension is indivisible: under
expert model parallelism, `num_experts` not divisible by the expert
sharding degree or `ffn_hidden_size` not divisible by the hidden sharding
degree; and, under weight parallelism (with or without expert model
parallelism), the total flattened local row count not divisible by the
weight-parallel world size. -/
theorem c7_indivisible_fatal {α : Type} (args : Arguments)
    (init : Nat → Nat → Nat → α) :
    (∃ e, create_dmoe_expert_weights args init = .error e) ↔
      ((args.moeExpertModelParallelism = true ∧
        (args.moeNumExperts % args.expertShardingDegree ≠ 0 ∨
         args.ffnHiddenSize % args.hiddenShardingDegree ≠ 0)) ∨
       (args.moeWeightParallelism = true ∧
        (localExperts args * localRows args) %
          args.weightParallelWorldSize ≠ 0)) := by
  by_cases hemp : args.moeExpertModelParallelism = true
  · by_cases h1 : args.moeNumExperts % args.expertShardingDegree = 0
    · by_cases h2 : args.ffnHiddenSize % args.hiddenShardingDegree = 0
      · unfold create_dmoe_expert_weights
        rw [create_moe_ok args init hemp h1 h2]
        by_cases h3 : args.moeWeightParallelism = true
        · by_cases h4 : (localExperts args * localRows args) %
              args.weightParallelWorldSize = 0
          · simp [localExperts, localRows, hemp, h3, h1, h2] at h4 ⊢
            simp [h4]
          · simp [localExperts, localRows, hemp, h3, h1, h2] at h4 ⊢
            simp [h4]
        · have h3f : args.moeWeightParallelism = false := by
            revert h3
            cases args.moeWeightParallelism <;> simp
          simp [localExperts, localRows, hemp, h3f, h1, h2]
      · constructor
        · intro _
          exact Or.inl ⟨hemp, Or.inr h2⟩
        · intro _
          refine ⟨.indivisible, ?_⟩
          unfold create_dmoe_expert_weights create_moe_expert_weights
          rw [if_neg (by simp [hemp]), if_neg (by simp [h1]), if_pos h2]
    · constructor
      · intro _
        exact Or.inl ⟨hemp, Or.inl h1⟩
      · intro _
        refine ⟨.indivisible, ?_⟩
        unfold create_dmoe_expert_weights create_moe_expert_weights
        rw [if_neg (by simp [hemp]), if_pos h1]
  · have hempf : args.moeExpertModelParallelism = false := by
      revert hemp
      cases args.moeExpertModelParallelism <;> simp
    unfold create_dmoe_expert_weights create_moe_expert_weights
    rw [if_pos (by simp [hempf])]
    by_cases h3 : args.moeWeightParallelism = true
    · by_cases h4 : (localExperts args * localRows args) %
          args.weightParallelWorldSize = 0
      · simp [localExperts, localRows, hempf, h3] at h4 ⊢
        simp [h4]
      · simp [localExperts, localRows, hempf, h3] at h4 ⊢
        simp [h4]
    · have h3f : args.moeWeightParallelism = false := by
        revert h3
        cases args.moeWeightParallelism <;> simp
      simp [localExperts, localRows, hempf, h3f]

theorem c7_indivisible_fatal_witness :
    ((∃ e, create_dmoe_expert_weights argsS initS = .error e) ↔
      ((argsS.moeExpertModelParallelism = true ∧
        (argsS.moeNumExperts % argsS.expertShardingDegree ≠ 0 ∨
         argsS.ffnHiddenSize % argsS.hiddenShardingDegree ≠ 0)) ∨
       (argsS.moeWeightParallelism = true ∧
        (localExperts argsS * localRows argsS) %
          argsS.weightParallelWorldSize ≠ 0))) ∧
    (∃ e, create_dmoe_expert_weights
        ⟨5, 6, 2, true, true, false, -1, 2, 3, 5, 6, 2, 1, 0⟩ initS =
      .error e) ∧
    (∃ e, create_dmoe_expert_weights
        ⟨5, 7, 2, false, true, false, -1, 2, 3, 5, 6, 2, 1, 0⟩ initS =
      .error e) :=
  ⟨c7_indivisible_fatal argsS initS,
    (c7_indivisible_fatal
      ⟨5, 6, 2, true, true, false, -1, 2, 3, 5, 6, 2, 1, 0⟩ initS).mpr
      (Or.inl ⟨rfl, Or.inl (by decide)⟩),
    (c7_indivisible_fatal
      ⟨5, 7, 2, false, true, false, -1, 2, 3, 5, 6, 2, 1, 0⟩ initS).mpr
      (Or.inr ⟨rfl, by decide⟩)⟩

/-- Claim C8: the gradient-scaling wrapper is the identity on the forward
value for every input and scale; on backward it returns the incoming
gradient multiplied by the stored scale and `None` for the scale
argument's gradient; and the expert modules' `scale_grad` applies it to a
weight with scale `1 / expert_parallel_world_size` exactly when expert
model parallelism is active, returning the weight unchanged (no wrapper)
when inactive. -/
theorem c8_scale_gradient (x g w : Val) (s : ℚ) (args : Arguments) :
    (ScaleGradient.forward x s).1 = x ∧
    ScaleGradient.backward s g = (.smul s g, none) ∧
    (args.moeExpertModelParallelism = true →
      scaleGrad args w =
        .applied w (1 / (args.expertParallelWorldSize : ℚ)) ∧
      (scaleGrad args w).value = w) ∧
    (args.moeExpertModelParallelism = false →
      scaleGrad args w = .plain w ∧ (scaleGrad args w).value = w) := by
  refine ⟨rfl, rfl, ?_, ?_⟩
  · intro h
    simp [scaleGrad, gradientScale, h, GradScaled.value, ScaleGradient.forward]
  · intro h
    simp [scaleGrad, gradientScale, h, GradScaled.value]

theorem c8_scale_gradient_witness :
    (ScaleGradient.forward (.base 3) (1 / 2)).1 = Val.base 3 ∧
    ScaleGradient.backward (1 / 2) (.base 5) = (.smul (1 / 2) (.base 5), none) ∧
    (argsS.moeExpertModelParallelism = true ∧
      scaleGrad argsS (.base 4) =
        .applied (.base 4) (1 / (argsS.expertParallelWorldSize : ℚ))) ∧
    ({argsS with moeExpertModelParallelism := false}.moeExpertModelParallelism
        = false ∧
      scaleGrad {argsS with moeExpertModelParallelism := false} (.base 4) =
        .plain (.base 4)) :=
  ⟨(c8_scale_gradient (.base 3) (.base 5) (.base 4) (1 / 2) argsS).1,
   (c8_scale_gradient (.base 3) (.base 5) (.base 4) (1 / 2) argsS).2.1,
   ⟨rfl, ((c8_scale_gradient (.base 3) (.base 5) (.base 4) (1 / 2)
      argsS).2.2.1 rfl).1⟩,
   ⟨rfl, ((c8_scale_gradient (.base 3) (.base 5) (.base 4) (1 / 2)
      {argsS with moeExpertModelParallelism := false}).2.2.2 rfl).1⟩⟩

/-- Claim C10: when both `moe_weight_parallelism` and
`memory_optimized_mlp` are enabled, `SparseMLP.forward` dispatches to the
weight-parallel memory-optimized call without passing
`quantize_activations_num_bits`, so the configured activation-quantization
setting has no effect on the issued call; the setting is consumed only on
the non-weight-parallel memory-optimized path. -/
theorem c10_wp_ignores_num_bits (args : Arguments) (w1v w2v x : Val)
    (topo : Topo) (b b2 : Int) :
    (args.moeWeightParallelism = true → args.memoryOptimizedMlp = true →
      sparseMLPForward {args with quantizeActivationsNumBits := b}
          w1v w2v x topo =
        sparseMLPForward {args with quantizeActivationsNumBits := b2}
          w1v w2v x topo ∧
      sparseMLPForward args w1v w2v x topo =
        .wpMemoryOptimized x (scaleGrad args w1v) (scaleGrad args w2v) topo
          args.weightParallelGroup) ∧
    (args.moeWeightParallelism = false → args.memoryOptimizedMlp = true →
      sparseMLPForward args w1v w2v x topo =
        .memoryOptimized x (scaleGrad args w1v) (scaleGrad args w2v) topo
          args.quantizeActivationsNumBits) := by
  constructor
  · intro hwp hmo
    constructor
    · simp [sparseMLPForward, sparseMLPParallelForward, hwp, hmo,
        scaleGrad, gradientScale]
    · simp [sparseMLPForward, sparseMLPParallelForward, hwp, hmo]
  · intro hwp hmo
    simp [sparseMLPForward, hwp, hmo]

theorem c10_wp_ignores_num_bits_witness :
    (sparseMLPForward {argsWM with quantizeActivationsNumBits := 4}
        (.base 1) (.base 2) (.base 0) topoS =
      sparseMLPForward {argsWM with quantizeActivationsNumBits := 8}
        (.base 1) (.base 2) (.base 0) topoS ∧
      sparseMLPForward argsWM (.base 1) (.base 2) (.base 0) topoS =
        .wpMemoryOptimized (.base 0) (scaleGrad argsWM (.base 1))
          (scaleGrad argsWM (.base 2)) topoS argsWM.weightParallelGroup) ∧
    sparseMLPForward argsM (.base 1) (.base 2) (.base 0) topoS =
      .memoryOptimized (.base 0) (scaleGrad argsM (.base 1))
        (scaleGrad argsM (.base 2)) topoS argsM.quantizeActivationsNumBits :=
  ⟨(c10_wp_ignores_num_bits argsWM (.base 1) (.base 2) (.base 0) topoS 4 8).1
      rfl rfl,
   (c10_wp_ignores_num_bits argsM (.base 1) (.base 2) (.base 0) topoS 4 8).2
      rfl rfl⟩

end MB
